import Mathlib

/-!
Shallow embedding of the sensor-to-state-to-telemetry firmware core:
the change-tracked state aggregator (`ctl::State`), its JSON encoders,
the telemetry source wrapper, the debounced button, the ALS31300 angle
sensor driver, the cannon `StateView` domain change view, and the I2C
bus-recovery routine `clearBus`.

Machine integers are modelled as `Nat`/`Int` with explicit wraparound
where the C code relies on it; `float` quantities are modelled as `Rat`.
Buffers are modelled as `List Char`; a C `snprintf` into `out + off`
with capacity `room` is modelled as a splice that writes the truncated
text plus a NUL terminator at offset `off`.
-/

/-- 2^32, the modulus of `uint32_t` / `unsigned long` arithmetic. -/
def u32W : Nat := 4294967296

/-- Wrapping subtraction `a - b` on `uint32_t`, as used for elapsed-time
computations (`now - lastChangeMs_`, `now_.tsMs - lastHeartbeat_`). -/
def u32sub (a b : Nat) : Nat := (a % u32W + (u32W - b % u32W)) % u32W

/-- The NUL terminator byte. -/
def nulChar : Char := '\x00'

/-- Characters of a string literal (buffer texts are `List Char`). -/
def chars (s : String) : List Char := s.toList

/-- Decimal text of an unsigned integer, as printed by `%lu`/`%u`
(`Nat.toDigits 10 n` is the character list underlying `Nat.repr`). -/
def natChars (n : Nat) : List Char := Nat.toDigits 10 n

namespace ctl

/-- `ctl::Snapshot`: timestamp, angle, button, distance, presence. -/
structure Snapshot where
  tsMs : Nat
  angleDeg : Rat
  buttonPressed : Bool
  distanceMm : Nat
  targetPresent : Bool
deriving Repr, DecidableEq

/-- Default-constructed `ctl::Snapshot` (all fields zero / false). -/
def Snapshot.init : Snapshot :=
  { tsMs := 0, angleDeg := 0, buttonPressed := false, distanceMm := 0, targetPresent := false }

/-- `ctl::ChangedNone`. -/
def ChangedNone : Nat := 0

/-- `ctl::ChangedAngle` (bit 0). -/
def ChangedAngle : Nat := 1

/-- `ctl::ChangedButton` (bit 1). -/
def ChangedButton : Nat := 2

/-- `ctl::ChangedDistance` (bit 2). -/
def ChangedDistance : Nat := 4

/-- `ctl::ChangedPresence` (bit 3). -/
def ChangedPresence : Nat := 8

/-- `ctl::ChangedTimeOnly` (bit 4, heartbeat). -/
def ChangedTimeOnly : Nat := 16

/-- `ctl::State`: previous/current snapshot, last change mask, and the
configured policies (angle epsilon, presence threshold, heartbeat). -/
structure State where
  now : Snapshot
  last : Snapshot
  lastChangeMask : Nat
  angleEpsDeg : Rat
  presenceThresholdMm : Nat
  heartbeatMs : Nat
  lastHeartbeat : Nat
deriving Repr, DecidableEq

/-- Default-constructed `ctl::State` (`kAngleEpsDeg = 0.25f`,
threshold 120 mm, heartbeat 2000 ms). -/
def State.init : State :=
  { now := Snapshot.init, last := Snapshot.init, lastChangeMask := ChangedNone,
    angleEpsDeg := 1/4, presenceThresholdMm := 120, heartbeatMs := 2000, lastHeartbeat := 0 }

/-- `ctl::State::setAngleEpsilon`. -/
def State.setAngleEpsilon (s : State) (deg : Rat) : State := { s with angleEpsDeg := deg }

/-- `ctl::State::setPresenceDistanceThreshold`. -/
def State.setPresenceDistanceThreshold (s : State) (mm : Nat) : State :=
  { s with presenceThresholdMm := mm }

/-- `ctl::State::setHeartbeatMs` (interval 0 disables the heartbeat). -/
def State.setHeartbeatMs (s : State) (ms : Nat) : State := { s with heartbeatMs := ms }

/-- `ctl::State::update`: shift `now_` into `last_`, store the new raw
readings, derive `targetPresent`, compute the change mask field by field
(`fabs` raw difference vs. epsilon for the angle, inequality for the
rest), and set the heartbeat-only bit when nothing changed and the
heartbeat interval elapsed.  Returns (new state, mask). -/
def State.update (s : State) (tsMs : Nat) (angleDeg : Rat) (buttonPressed : Bool)
    (distanceMm : Nat) (distanceValid : Bool) : State × Nat :=
  let last := s.now
  let targetPresent : Bool :=
    if distanceValid then true
    else decide (0 < s.presenceThresholdMm) && decide (0 < distanceMm) &&
         decide (distanceMm ≤ s.presenceThresholdMm)
  let now : Snapshot :=
    { tsMs := tsMs, angleDeg := angleDeg, buttonPressed := buttonPressed,
      distanceMm := distanceMm, targetPresent := targetPresent }
  let m1 := if |now.angleDeg - last.angleDeg| > s.angleEpsDeg then ChangedAngle else ChangedNone
  let m2 := m1 ||| (if now.buttonPressed ≠ last.buttonPressed then ChangedButton else ChangedNone)
  let m3 := m2 ||| (if now.distanceMm ≠ last.distanceMm then ChangedDistance else ChangedNone)
  let m4 := m3 ||| (if now.targetPresent ≠ last.targetPresent then ChangedPresence else ChangedNone)
  let hb : Bool := decide (m4 = ChangedNone) && decide (0 < s.heartbeatMs) &&
                   decide (s.heartbeatMs ≤ u32sub tsMs s.lastHeartbeat)
  let mask := if hb then m4 ||| ChangedTimeOnly else m4
  ({ s with now := now, last := last, lastChangeMask := mask,
            lastHeartbeat := if hb then tsMs else s.lastHeartbeat }, mask)

end ctl

namespace hal

/-- `DebouncedButton` state: debounce window (`uint16_t`), most recent
raw reading, committed stable level, previous stable level, and the
`millis()` timestamp of the last raw flip. -/
structure DB where
  debounceMs : Nat
  lastReading : Bool
  stable : Bool
  prevStable : Bool
  lastChangeMs : Nat
deriving Repr, DecidableEq

/-- A fresh `DebouncedButton` after `begin()` read a low line at time 0
(default window 30 ms). -/
def DB.init : DB :=
  { debounceMs := 30, lastReading := false, stable := false, prevStable := false,
    lastChangeMs := 0 }

/-- `DebouncedButton::update`: if the raw reading flipped, restart the
debounce window; commit (and report an edge) only when the reading has
been unchanged for at least the window and differs from the stable
level.  The raw GPIO reading and `millis()` are passed as inputs. -/
def DB.update (b : DB) (now : Nat) (reading : Bool) : DB × Bool :=
  let b1 := if reading ≠ b.lastReading
            then { b with lastReading := reading, lastChangeMs := now } else b
  if b1.debounceMs ≤ u32sub now b1.lastChangeMs ∧ reading ≠ b1.stable then
    ({ b1 with prevStable := b1.stable, stable := reading }, true)
  else (b1, false)

/-- Run `update` over a list of `(millis, raw reading)` samples,
collecting the returned edge flags. -/
def DB.run (b : DB) : List (Nat × Bool) → DB × List Bool
  | [] => (b, [])
  | (t, r) :: rest =>
    let s := b.update t r
    let f := DB.run s.1 rest
    (f.1, s.2 :: f.2)

/-- How long (in the button's own wraparound time measure) the current
reading has been held at the moment `update now reading` samples it:
zero if this call flips the raw reading, else the elapsed time since
the recorded last flip. -/
def DB.heldFor (b : DB) (now : Nat) (reading : Bool) : Nat :=
  if reading ≠ b.lastReading then 0 else u32sub now b.lastChangeMs

/-- A trace is glitchy for `b` when at every sample the raw reading has
been held for strictly less than the debounce window. -/
def DB.glitchy (b : DB) : List (Nat × Bool) → Bool
  | [] => true
  | (t, r) :: rest =>
    decide (b.heldFor t r < b.debounceMs) && DB.glitchy (b.update t r).1 rest

/-- The sample trace of a single raw change held thereafter: the new
level `r` first sampled at `t1`, re-sampled during the settling window
at the times in `pre`, at `t0` once the window has elapsed, and at the
times in `post` afterwards. -/
def singleChangeTrace (r : Bool) (t1 : Nat) (pre : List Nat) (t0 : Nat) (post : List Nat) :
    List (Nat × Bool) :=
  (t1, r) :: ((pre.map fun t => (t, r)) ++ (t0, r) :: (post.map fun t => (t, r)))

end hal

namespace ALS31300

/-- The filtered per-axis state (`x`, `y`, `z`) and heading-filter state
(`avgAngle`) of `ALS31300::Sensor`; floats modelled as rationals. -/
structure Sensor where
  x : Rat
  y : Rat
  z : Rat
  avgAngle : Rat
deriving Repr, DecidableEq

/-- A fresh `ALS31300::Sensor` (all filter state zero). -/
def Sensor.init : Sensor := { x := 0, y := 0, z := 0, avgAngle := 0 }

/-- Reinterpret a `uint16_t` bit pattern as `int16_t` (the
`(int16_t) newX` cast). -/
def toInt16 (n : Nat) : Int :=
  let m := n % 65536
  if m < 32768 then (m : Int) else (m : Int) - 65536

/-- `Register0x28` axis-MSB fields decoded by explicit shift/mask
(bitfields, LSB first: temperature 0-5, interrupt 6, newData 7,
zAxisMsbs 8-15, yAxisMsbs 16-23, xAxisMsbs 24-31). -/
def reg28xMsbs (raw : Nat) : Nat := (raw >>> 24) &&& 255

/-- `Register0x28.yAxisMsbs`. -/
def reg28yMsbs (raw : Nat) : Nat := (raw >>> 16) &&& 255

/-- `Register0x28.zAxisMsbs`. -/
def reg28zMsbs (raw : Nat) : Nat := (raw >>> 8) &&& 255

/-- `Register0x29` axis-LSB fields (bitfields, LSB first: temperature
0-5, hallStatus 6-7, zAxisLsbs 8-11, yAxisLsbs 12-15, xAxisLsbs
16-19, intWrite 20). -/
def reg29xLsbs (raw : Nat) : Nat := (raw >>> 16) &&& 15

/-- `Register0x29.yAxisLsbs`. -/
def reg29yLsbs (raw : Nat) : Nat := (raw >>> 12) &&& 15

/-- `Register0x29.zAxisLsbs`. -/
def reg29zLsbs (raw : Nat) : Nat := (raw >>> 8) &&& 15

/-- `ALS31300::Sensor::update`: read register 0x28 (axis MSBs), then
register 0x29 (axis LSBs), reassemble each axis as a signed 16-bit
value and fold it into the exponential filter with weight 32.  The two
bus reads are modelled as `Option` outcomes (`none` = failed transfer);
either failure returns `false` before any filter state is assigned. -/
def Sensor.update (s : Sensor) (r28 r29 : Option Nat) : Bool × Sensor :=
  match r28 with
  | none => (false, s)
  | some d28 =>
    let newX0 := reg28xMsbs d28 <<< 8
    let newY0 := reg28yMsbs d28 <<< 8
    let newZ0 := reg28zMsbs d28 <<< 8
    match r29 with
    | none => (false, s)
    | some d29 =>
      let newX := newX0 ||| reg29xLsbs d29
      let newY := newY0 ||| reg29yLsbs d29
      let newZ := newZ0 ||| reg29zLsbs d29
      let fi : Rat := 32
      (true,
       { s with x := ((toInt16 newX : Rat) + s.x * (fi - 1)) / fi,
                y := ((toInt16 newY : Rat) + s.y * (fi - 1)) / fi,
                z := ((toInt16 newZ : Rat) + s.z * (fi - 1)) / fi })

/-- The normalization step at the end of `Sensor::angleFromXY`: the
`atan2f` result converted to degrees lies in (-180, 180]; the code adds
360 when it is negative, leaving a value in [0, 360). -/
def angleFromXYNorm (atanDeg : Rat) : Rat :=
  if atanDeg < 0 then atanDeg + 360 else atanDeg

/-- Truncation toward zero of a rational (the C `float` → integer
conversion). -/
def truncQ (q : Rat) : Int := if q < 0 then -(Int.floor (-q)) else Int.floor q

/-- The return statement of `Sensor::getAngle` as a function of the
internal `avgAngle` member: `return avgAngle + 0.5f;` with return type
`uint16_t`, i.e. add one half then truncate toward zero. -/
def getAngleRound (avgAngle : Rat) : Nat := (truncQ (avgAngle + 1/2)).toNat

end ALS31300

namespace cannon

/-- `cannon::ChangedNone`. -/
def ChangedNone : Nat := 0

/-- `cannon::ChangedAngle` (bit 0). -/
def ChangedAngle : Nat := 1

/-- `cannon::ChangedLoaded` (bit 1). -/
def ChangedLoaded : Nat := 2

/-- `cannon::ChangedFired` (bit 2). -/
def ChangedFired : Nat := 4

/-- `cannon::StateView::normalize360`: `fmod(deg, 360)` (truncated
toward zero, sign of the dividend), plus 360 if negative, then
`lround` (round to nearest, halves away from zero). -/
def normalize360 (deg : Rat) : Int :=
  let m0 := deg - 360 * (ALS31300.truncQ (deg / 360) : Rat)
  let m := if m0 < 0 then m0 + 360 else m0
  if m < 0 then -(Int.floor (-m + 1/2)) else Int.floor (m + 1/2)

/-- The values `StateView::update` pulls from the wrapped controller
state through its getter function pointers. -/
structure ViewIn where
  angle : Rat
  loaded : Bool
  fired : Bool
deriving Repr, DecidableEq

/-- `cannon::StateView` cached view state. -/
structure StateView where
  angleDegInt : Int
  angleDeg : Rat
  loaded : Bool
  fired : Bool
  justLoaded : Bool
  justFired : Bool
  lastChange : Nat
deriving Repr, DecidableEq

/-- A fresh `cannon::StateView`. -/
def StateView.init : StateView :=
  { angleDegInt := 0, angleDeg := 0, loaded := false, fired := false,
    justLoaded := false, justFired := false, lastChange := ChangedNone }

/-- `cannon::StateView::update`: quantize the angle and record a change
when the quantized value moved; compute `justLoaded` / `justFired` as
rising edges of the loaded / fired flags and then latch the new flag
values.  Returns (new view, change mask). -/
def StateView.update (v : StateView) (inp : ViewIn) : StateView × Nat :=
  let q := normalize360 inp.angle
  let angleMoved : Bool := decide (q ≠ v.angleDegInt)
  let c1 := if angleMoved then ChangedAngle else ChangedNone
  let justLoaded := inp.loaded && !v.loaded
  let c2 := c1 ||| (if justLoaded then ChangedLoaded else ChangedNone)
  let justFired := inp.fired && !v.fired
  let changed := c2 ||| (if justFired then ChangedFired else ChangedNone)
  ({ angleDegInt := if angleMoved then q else v.angleDegInt,
     angleDeg := if angleMoved then inp.angle else v.angleDeg,
     loaded := inp.loaded, fired := inp.fired,
     justLoaded := justLoaded, justFired := justFired,
     lastChange := changed }, changed)

/-- Run `StateView::update` over a list of sampled inputs (no
intervening `resetLoadedAndFired`). -/
def StateView.run (v : StateView) (l : List ViewIn) : StateView :=
  l.foldl (fun s i => (s.update i).1) v

end cannon

namespace i2c

/-- Observable bus actions of `I2CBus::clearBus`: one full clock pulse
(SCL low then released high), or a generated stop condition (SDA low
then released high while SCL is high). -/
inductive BusEv where
  | pulse : BusEv
  | stop : BusEv
deriving Repr, DecidableEq

/-- The clock-pulse loop of `clearBus`: `for (i = 0; i < pulses &&
digitalRead(sda) == LOW; ++i) { pulse SCL }`.  The data line is
modelled as the sequence of values successive `digitalRead(sda)` calls
return; the loop consumes one read per guard evaluation reached with
`i < pulses`.  Returns (index of the next unconsumed read, events). -/
def clearLoop (sda : Nat → Bool) : Nat → Nat → Nat × List BusEv
  | 0, idx => (idx, [])
  | n + 1, idx =>
    if sda idx then (idx + 1, [])
    else
      let r := clearLoop sda n (idx + 1)
      (r.1, BusEv.pulse :: r.2)

/-- `I2CBus::clearBus(pulses, slowFirst)` over a modelled data line:
run the clock-pulse loop, generate one stop condition, then sample SDA
once more; the final sample is the return value (`freed`).  (The Wire
detach/reattach and the optional slow reattach clock do not touch the
data line and are not part of the observable line behaviour.) -/
def clearBus (sda : Nat → Bool) (pulses : Nat) : Bool × List BusEv :=
  let r := clearLoop sda pulses 0
  (sda r.1, r.2 ++ [BusEv.stop])

end i2c

/-- Overwrite the byte at index `i` of a buffer (a C `out[i] = c`). -/
def writeAt (buf : List Char) (i : Nat) (c : Char) : List Char :=
  buf.take i ++ c :: buf.drop (i + 1)

/-- `snprintf(out + off, room, ...)` producing `text`: when `room` is
nonzero, write at most `room - 1` characters of `text` plus a NUL at
offset `off`, and return the length the full text would have had. -/
def snprintfAt (buf : List Char) (off room : Nat) (text : List Char) : List Char × Nat :=
  if room = 0 then (buf, text.length)
  else
    let w := text.take (room - 1) ++ [nulChar]
    (buf.take off ++ w ++ buf.drop (off + w.length), text.length)

/-- The C string a buffer holds: its bytes up to the first NUL. -/
def cString (buf : List Char) : List Char := buf.takeWhile (fun c => c ≠ nulChar)

namespace ctl

/-- The hundredths integer nearest to `q` (that is, `⌊q * 100 + 1/2⌋`,
see `round2_eq_floor`), computed directly on the numerator and
denominator so that it evaluates by kernel reduction. -/
def round2 (q : Rat) : Int := Int.fdiv (200 * q.num + q.den) (2 * q.den)

/-- `%.2f` on a rational: round to the nearest hundredth and render
with exactly two decimals (the model of the `snprintf` float format). -/
def fmt2 (q : Rat) : List Char :=
  let n := round2 q
  let m := n.natAbs
  (if n < 0 then chars "-" else []) ++ natChars (m / 100) ++ chars "." ++
  (if m % 100 < 10 then chars "0" else []) ++ natChars (m % 100)

/-- The full-snapshot JSON record of `ctl::State::toJson`:
`{"t":<ts>,"ang":<2dp>,"btn":<0|1>,"dist":<mm>,"prs":<0|1>}`. -/
def jsonFullChars (snap : Snapshot) : List Char :=
  chars "\x7b\"t\":" ++ natChars snap.tsMs ++
  chars ",\"ang\":" ++ fmt2 snap.angleDeg ++
  chars ",\"btn\":" ++ (if snap.buttonPressed then chars "1" else chars "0") ++
  chars ",\"dist\":" ++ natChars snap.distanceMm ++
  chars ",\"prs\":" ++ (if snap.targetPresent then chars "1" else chars "0") ++
  chars "\x7d"

/-- `ctl::State::toJson`: one `snprintf` of the full record; true iff
the formatted length is positive and strictly below the capacity. -/
def State.toJson (s : State) (buf : List Char) (cap : Nat) : Bool × List Char :=
  if cap = 0 then (false, buf)
  else
    let r := snprintfAt buf 0 cap (jsonFullChars s.now)
    (decide (0 < r.2) && decide (r.2 < cap), r.1)

/-- The text `addField`'s lead-in `snprintf(",\"%s\":", key)` produces. -/
def fieldPre (key : String) : List Char := ',' :: '\"' :: (chars key ++ chars "\":")

/-- The `addField` lambda inside `toDeltaJson`: `snprintf` the
`,"key":` lead-in, then `snprintf` the formatted value, failing (and
leaving whatever was partially written) when either formatted length
would reach the remaining capacity.  (The C code passes the numeric
values through a `double` vararg even for the `%d`/`%u` fields; the
intended decimal rendering is modelled.) -/
def addField (buf : List Char) (len cap : Nat) (key : String) (v : List Char) :
    Except (List Char) (List Char × Nat) :=
  let r1 := snprintfAt buf len (cap - len) (fieldPre key)
  if r1.2 = 0 ∨ cap ≤ len + r1.2 then Except.error r1.1
  else
    let len1 := len + r1.2
    let r2 := snprintfAt r1.1 len1 (cap - len1) v
    if r2.2 = 0 ∨ cap ≤ len1 + r2.2 then Except.error r2.1
    else Except.ok (r2.1, len1 + r2.2)

/-- The four guarded `addField` calls of `toDeltaJson`, in source
order. -/
def addFields (cap : Nat) : List Char → Nat → List (Bool × String × List Char) →
    Except (List Char) (List Char × Nat)
  | buf, len, [] => Except.ok (buf, len)
  | buf, len, (cond, key, v) :: rest =>
    if cond then
      match addField buf len cap key v with
      | Except.error b => Except.error b
      | Except.ok (b, l) => addFields cap b l rest
    else addFields cap buf len rest

/-- The field list `toDeltaJson` walks: (mask test, key, formatted
value) for ang, btn, dist, prs.  The ang value comes from the
correctly-typed `%.2f` double vararg; the btn, dist and prs calls pass
a `double` vararg to `%d`/`%u`, which is undefined behaviour, so the
bytes those three `snprintf` calls emit are taken as unspecified
inputs `vb`, `vd`, `vp` (a `%d`/`%u` conversion always emits at least
one byte, whatever value it reads). -/
def deltaFieldList (snap : Snapshot) (mask : Nat) (vb vd vp : List Char) :
    List (Bool × String × List Char) :=
  [(decide (mask &&& ChangedAngle ≠ 0), "ang", fmt2 snap.angleDeg),
   (decide (mask &&& ChangedButton ≠ 0), "btn", vb),
   (decide (mask &&& ChangedDistance ≠ 0), "dist", vd),
   (decide (mask &&& ChangedPresence ≠ 0), "prs", vp)]

/-- `ctl::State::toDeltaJson`: write `{"t":<ts>`, append the masked
fields via `addField`, then close with `}` and a NUL — the close needs
`len + 2 < cap` per the final guard.  Returns the success flag and the
buffer (with partial writes left behind on failure).  `vb`, `vd`, `vp`
are the unspecified byte strings the undefined-behaviour `%d`/`%u`
value conversions emit (see `deltaFieldList`). -/
def State.toDeltaJson (s : State) (buf : List Char) (cap : Nat) (changeMask : Nat)
    (vb vd vp : List Char) : Bool × List Char :=
  if cap = 0 then (false, buf)
  else
    let r := snprintfAt buf 0 cap (chars "\x7b\"t\":" ++ natChars s.now.tsMs)
    if r.2 = 0 ∨ cap ≤ r.2 then (false, r.1)
    else
      match addFields cap r.1 r.2 (deltaFieldList s.now changeMask vb vd vp) with
      | Except.error b => (false, b)
      | Except.ok (b, len) =>
        if cap ≤ len + 2 then (false, b)
        else (true, writeAt (writeAt b len '\x7d') (len + 1) nulChar)

/-- The delta record shape the spec words prescribe:
`{"t":<uint>[,"ang":<float 2dp>][,"btn":<v>][,"dist":<v>][,"prs":<v>]}`
— the timestamp first, then a field exactly when its bit is flagged,
in the fixed key order, with the heading at two decimal places.  The
btn/dist/prs *values* are the unspecified bytes `vb`, `vd`, `vp` the
source's undefined-behaviour `%d`/`%u` double-vararg conversions emit
(so only presence, order and the heading format are prescribed, not
those three values). -/
def deltaJsonSpec (snap : Snapshot) (mask : Nat) (vb vd vp : List Char) : List Char :=
  chars "\x7b\"t\":" ++ natChars snap.tsMs ++
  (if mask &&& ChangedAngle ≠ 0 then chars ",\"ang\":" ++ fmt2 snap.angleDeg else []) ++
  (if mask &&& ChangedButton ≠ 0 then chars ",\"btn\":" ++ vb else []) ++
  (if mask &&& ChangedDistance ≠ 0 then chars ",\"dist\":" ++ vd else []) ++
  (if mask &&& ChangedPresence ≠ 0 then chars ",\"prs\":" ++ vp else []) ++
  chars "\x7d"

/-- The concatenated text the guarded `addField` calls append for a
field list. -/
def renderFields : List (Bool × String × List Char) → List Char
  | [] => []
  | (cond, key, v) :: rest => (if cond then fieldPre key ++ v else []) ++ renderFields rest

/-- A concrete snapshot used to exercise the encoders. -/
def sampleSnap : Snapshot :=
  { tsMs := 5, angleDeg := 0, buttonPressed := true, distanceMm := 7, targetPresent := false }

/-- A concrete aggregator state holding `sampleSnap` with the button
and distance bits flagged. -/
def sampleState : State := { State.init with now := sampleSnap, lastChangeMask := 6 }

end ctl

namespace telemetry

/-- `ControllerTelemetrySource::safeTerm`: force a NUL at index `n`,
clamped to the last byte of the buffer. -/
def safeTerm (buf : List Char) (cap n : Nat) : List Char :=
  if cap ≠ 0 then writeAt buf (if n < cap then n else cap - 1) nulChar else buf

/-- `ControllerTelemetrySource::buildDeltaJson`: bail out when nothing
changed; otherwise capture `toDeltaJson`'s *boolean* result in `auto n`,
pass it to `safeTerm` as if it were a byte count, and return `n > 0`.
`vb`, `vd`, `vp` are threaded through to `toDeltaJson` (see
`ctl.deltaFieldList`). -/
def buildDeltaJson (s : ctl.State) (buf : List Char) (cap : Nat) (vb vd vp : List Char) :
    Bool × List Char :=
  if s.lastChangeMask = 0 then (false, buf)
  else
    let r := s.toDeltaJson buf cap s.lastChangeMask vb vd vp
    let n : Nat := if r.1 then 1 else 0
    (decide (0 < n), safeTerm r.2 cap n)

/-- `ControllerTelemetrySource::buildSnapshotJson`: capture `toJson`'s
boolean result as a size, `safeTerm` with it, and return it. -/
def buildSnapshotJson (s : ctl.State) (buf : List Char) (cap : Nat) : Nat × List Char :=
  let r := s.toJson buf cap
  let n : Nat := if r.1 then 1 else 0
  (n, safeTerm r.2 cap n)

end telemetry

/-! ## Helper lemmas -/

namespace ctl

/-- The angle bit of the mask returned by `State::update` is set exactly
when the raw absolute difference to the previous stored angle exceeds
the configured epsilon. -/
theorem update_mask_angle_bit (s : State) (ts : Nat) (a : Rat) (b : Bool) (d : Nat) (v : Bool) :
    ((s.update ts a b d v).2 &&& ChangedAngle ≠ 0) ↔ |a - s.now.angleDeg| > s.angleEpsDeg := by
  simp only [State.update, ChangedAngle, ChangedButton, ChangedDistance, ChangedPresence,
    ChangedTimeOnly, ChangedNone]
  by_cases h1 : |a - s.now.angleDeg| > s.angleEpsDeg <;>
    by_cases h2 : b ≠ s.now.buttonPressed <;>
    by_cases h3 : d ≠ s.now.distanceMm <;>
    by_cases h4 : ((if v then true
        else decide (0 < s.presenceThresholdMm) && decide (0 < d) &&
          decide (d ≤ s.presenceThresholdMm)) ≠ s.now.targetPresent) <;>
    simp only [h1, h2, h3, h4, if_true, if_false, if_pos, if_neg, not_false_iff] <;>
    split <;> simp_all

/-- Updating never touches the configured epsilon, threshold or
heartbeat interval, and stores the new readings into `now_`. -/
theorem update_fst_fields (s : State) (ts : Nat) (a : Rat) (b : Bool) (d : Nat) (v : Bool) :
    (s.update ts a b d v).1.angleEpsDeg = s.angleEpsDeg ∧
    (s.update ts a b d v).1.presenceThresholdMm = s.presenceThresholdMm ∧
    (s.update ts a b d v).1.heartbeatMs = s.heartbeatMs ∧
    (s.update ts a b d v).1.now.angleDeg = a :=
  ⟨rfl, rfl, rfl, rfl⟩

end ctl

/-- `snprintf` always returns the full formatted length. -/
theorem snprintfAt_len (buf : List Char) (off room : Nat) (text : List Char) :
    (snprintfAt buf off room text).2 = text.length := by
  unfold snprintfAt
  split <;> rfl

/-- When the text and its NUL fit in the remaining room, `snprintf`
writes all of it at the offset. -/
theorem snprintfAt_fits (buf : List Char) (off room : Nat) (text : List Char)
    (h : text.length + 1 ≤ room) :
    snprintfAt buf off room text =
      (buf.take off ++ text ++ nulChar :: buf.drop (off + text.length + 1), text.length) := by
  unfold snprintfAt
  rw [if_neg (by omega)]
  have ht : text.take (room - 1) = text := List.take_of_length_le (by omega)
  rw [ht]
  simp only [List.length_append, List.length_cons, List.length_nil, List.append_assoc,
    List.singleton_append]
  rw [show off + (text.length + (0 + 1)) = off + text.length + 1 by omega]

/-- Writing `text` at the end of the already-written prefix `T` of a
buffer of capacity `cap` extends the prefix and moves the NUL. -/
theorem write_step (orig T text : List Char) (cap : Nat)
    (hfit : T.length + text.length + 1 ≤ cap) :
    snprintfAt (T ++ nulChar :: orig.drop (T.length + 1)) T.length (cap - T.length) text =
      ((T ++ text) ++ nulChar :: orig.drop ((T ++ text).length + 1), text.length) := by
  rw [snprintfAt_fits _ _ _ _ (by omega)]
  rw [List.take_left]
  rw [show T.length + text.length + 1 = T.length + (text.length + 1) by omega,
    List.drop_append (text.length + 1)]
  simp only [List.drop_succ_cons, List.drop_drop, List.append_assoc, List.length_append]
  rw [show T.length + 1 + text.length = T.length + text.length + 1 by omega]

/-- `Nat.toDigitsCore` never erases its accumulator. -/
theorem toDigitsCore_ne_nil : ∀ (fuel b n : Nat) (acc : List Char), acc ≠ [] →
    Nat.toDigitsCore b fuel n acc ≠ [] := by
  intro fuel
  induction fuel with
  | zero => intro b n acc h; exact h
  | succ fuel ih =>
    intro b n acc h
    simp only [Nat.toDigitsCore]
    split
    · simp
    · exact ih b (n / b) _ (by simp)

/-- Decimal text is never empty. -/
theorem natChars_ne_nil (n : Nat) : natChars n ≠ [] := by
  unfold natChars Nat.toDigits
  simp only [Nat.toDigitsCore]
  split
  · simp
  · exact toDigitsCore_ne_nil _ _ _ _ (by simp)

namespace ctl

/-- The rendered `%.2f` text is never empty. -/
theorem fmt2_ne_nil (q : Rat) : fmt2 q ≠ [] := by
  unfold fmt2
  simp [List.append_eq_nil, natChars_ne_nil]

/-- The `,"key":` lead-in is never empty. -/
theorem fieldPre_ne_nil (key : String) : fieldPre key ≠ [] := by simp [fieldPre]

/-- An `addField` call whose lead-in, value and NUL fit extends the
written prefix by the lead-in and the value. -/
theorem addField_fits (orig : List Char) (cap : Nat) (T : List Char) (key : String)
    (v : List Char) (hv : v ≠ [])
    (hfit : T.length + (fieldPre key).length + v.length + 1 ≤ cap) :
    addField (T ++ nulChar :: orig.drop (T.length + 1)) T.length cap key v =
      Except.ok (((T ++ fieldPre key) ++ v) ++ nulChar :: orig.drop (((T ++ fieldPre key) ++ v).length + 1), ((T ++ fieldPre key) ++ v).length) := by
  have hvlen : 0 < v.length := List.length_pos.mpr hv
  have hpre : (fieldPre key).length ≠ 0 := by simp [fieldPre]
  simp only [addField]
  rw [write_step orig T (fieldPre key) cap (by omega)]
  simp only [snprintfAt_len]
  rw [if_neg (by simp only [not_or]; exact ⟨hpre, by omega⟩)]
  rw [show T.length + (fieldPre key).length = (T ++ fieldPre key).length by simp]
  rw [write_step orig (T ++ fieldPre key) v cap (by simp only [List.length_append]; omega)]
  rw [if_neg (by simp only [not_or]; constructor; omega; simp only [List.length_append]; omega)]
  rw [show (T ++ fieldPre key).length + v.length = ((T ++ fieldPre key) ++ v).length by simp; try omega]

/-- A successful `addField` advances the length by lead-in plus
value. -/
theorem addField_len (buf : List Char) (len cap : Nat) (key : String) (v : List Char)
    (b : List Char) (l : Nat) (h : addField buf len cap key v = Except.ok (b, l)) :
    l = len + ((fieldPre key).length + v.length) := by
  simp only [addField, snprintfAt_len] at h
  split at h
  · exact absurd h (by simp)
  · split at h
    · exact absurd h (by simp)
    · simp only [Except.ok.injEq, Prod.mk.injEq] at h
      omega

/-- A successful `addFields` chain advances the length by the rendered
field text. -/
theorem addFields_len (cap : Nat) :
    ∀ (fs : List (Bool × String × List Char)) (buf : List Char) (len : Nat)
      (b : List Char) (l : Nat),
    addFields cap buf len fs = Except.ok (b, l) → l = len + (renderFields fs).length := by
  intro fs
  induction fs with
  | nil =>
    intro buf len b l h
    simp only [addFields, Except.ok.injEq, Prod.mk.injEq] at h
    simp [renderFields, ← h.2]
  | cons f rest ih =>
    obtain ⟨cond, key, v⟩ := f
    intro buf len b l h
    simp only [addFields] at h
    by_cases hc : cond = true
    · rw [if_pos hc] at h
      rcases hr : addField buf len cap key v with b1 | p1
      · rw [hr] at h; exact absurd h (by simp)
      · obtain ⟨b1, l1⟩ := p1
        rw [hr] at h
        have h1 := addField_len buf len cap key v b1 l1 hr
        have h2 := ih b1 l1 b l h
        simp only [renderFields, hc, if_true, List.length_append]
        omega
    · rw [if_neg hc] at h
      have h2 := ih buf len b l h
      simp only [renderFields, hc, if_false, List.length_append]
      simp at hc
      simp [hc] at h2 ⊢
      omega

/-- A fitting `addFields` chain writes the rendered field text after
the prefix `T` and re-terminates. -/
theorem addFields_fits (orig : List Char) (cap : Nat) :
    ∀ (fs : List (Bool × String × List Char)) (T : List Char),
    (∀ f ∈ fs, f.2.2 ≠ ([] : List Char)) →
    T.length + (renderFields fs).length + 1 ≤ cap →
    addFields cap (T ++ nulChar :: orig.drop (T.length + 1)) T.length fs =
      Except.ok ((T ++ renderFields fs) ++ nulChar :: orig.drop ((T ++ renderFields fs).length + 1), (T ++ renderFields fs).length) := by
  intro fs
  induction fs with
  | nil =>
    intro T hv hfit
    simp [addFields, renderFields]
  | cons f rest ih =>
    obtain ⟨cond, key, v⟩ := f
    intro T hv hfit
    simp only [renderFields] at hfit
    by_cases hc : cond = true
    · simp only [addFields]
      rw [if_pos hc]
      rw [addField_fits orig cap T key v (hv (cond, key, v) (by simp)) (by simp only [hc, if_true, List.length_append] at hfit; omega)]
      have hih := ih ((T ++ fieldPre key) ++ v) (fun f hf => hv f (by simp [hf]))
        (by simp only [hc, if_true, List.length_append] at hfit ⊢; omega)
      simp only [hih]
      simp [hc, renderFields, List.append_assoc, List.length_append, Nat.add_assoc]
    · simp only [addFields]
      rw [if_neg hc]
      have hih := ih T (fun f hf => hv f (by simp [hf]))
        (by simp only [hc, if_false, List.length_append] at hfit ⊢; simp at hc; simp [hc] at hfit; omega)
      rw [hih]
      simp at hc
      simp [hc, renderFields]

/-- The spec-side delta record is the head, the rendered field list,
and the closing brace. -/
theorem deltaSpec_decomp (snap : Snapshot) (mask : Nat) (vb vd vp : List Char) :
    deltaJsonSpec snap mask vb vd vp =
      ((chars "\x7b\"t\":" ++ natChars snap.tsMs) ++
        renderFields (deltaFieldList snap mask vb vd vp)) ++ chars "\x7d" := by
  have hang : fieldPre "ang" = chars ",\"ang\":" := by decide
  have hbtn : fieldPre "btn" = chars ",\"btn\":" := by decide
  have hdist : fieldPre "dist" = chars ",\"dist\":" := by decide
  have hprs : fieldPre "prs" = chars ",\"prs\":" := by decide
  simp only [deltaJsonSpec, renderFields, deltaFieldList, hang, hbtn, hdist, hprs,
    decide_eq_true_eq, List.append_assoc, List.append_nil]

/-- None of the four delta field values is empty text, given that the
unspecified `%d`/`%u` outputs are nonempty (a `snprintf` integer
conversion always emits at least one byte). -/
theorem deltaFieldList_vals_ne_nil (snap : Snapshot) (mask : Nat) (vb vd vp : List Char)
    (hvb : vb ≠ []) (hvd : vd ≠ []) (hvp : vp ≠ []) :
    ∀ f ∈ deltaFieldList snap mask vb vd vp, f.2.2 ≠ ([] : List Char) := by
  intro f hf
  simp only [deltaFieldList, List.mem_cons, List.not_mem_nil, or_false] at hf
  rcases hf with h | h | h | h <;> subst h
  · exact fmt2_ne_nil snap.angleDeg
  · exact hvb
  · exact hvd
  · exact hvp

/-- When the record, brace and NUL all fit with one byte to spare (the
final guard demands `len + 2 < cap`), `toDeltaJson` succeeds and the
buffer holds exactly the spec-side delta record, NUL-terminated —
whatever (nonempty) bytes the undefined `%d`/`%u` conversions emit. -/
theorem toDeltaJson_fits (s : State) (orig : List Char) (cap mask : Nat) (vb vd vp : List Char)
    (hvb : vb ≠ []) (hvd : vd ≠ []) (hvp : vp ≠ [])
    (hfit : (deltaJsonSpec s.now mask vb vd vp).length + 2 ≤ cap) :
    s.toDeltaJson orig cap mask vb vd vp =
      (true, deltaJsonSpec s.now mask vb vd vp ++
        nulChar :: orig.drop ((deltaJsonSpec s.now mask vb vd vp).length + 1)) := by
  have hdec := deltaSpec_decomp s.now mask vb vd vp
  have hhead5 : (chars "\x7b\"t\":").length = 5 := by decide
  have hclose : chars "\x7d" = ['\x7d'] := by decide
  have hl : (deltaJsonSpec s.now mask vb vd vp).length =
      (chars "\x7b\"t\":" ++ natChars s.now.tsMs).length +
        (renderFields (deltaFieldList s.now mask vb vd vp)).length + 1 := by
    rw [hdec]; simp only [List.length_append, hclose, List.length_cons, List.length_nil]
  have hheadlen : (chars "\x7b\"t\":" ++ natChars s.now.tsMs).length =
      5 + (natChars s.now.tsMs).length := by simp [List.length_append, hhead5]
  unfold State.toDeltaJson
  rw [if_neg (by omega : ¬cap = 0)]
  rw [snprintfAt_fits orig 0 cap (chars "\x7b\"t\":" ++ natChars s.now.tsMs) (by omega)]
  simp only [List.take_zero, List.nil_append, Nat.zero_add]
  rw [if_neg (by simp only [not_or]; constructor; omega; omega)]
  rw [addFields_fits orig cap (deltaFieldList s.now mask vb vd vp)
    (chars "\x7b\"t\":" ++ natChars s.now.tsMs)
    (deltaFieldList_vals_ne_nil s.now mask vb vd vp hvb hvd hvp) (by omega)]
  simp only []
  rw [if_neg (by simp only [List.length_append]; omega)]
  unfold writeAt
  rw [hdec, hclose]
  generalize (chars "\x7b\"t\":" ++ natChars s.now.tsMs ++ renderFields (deltaFieldList s.now mask vb vd vp)) = P
  rw [List.take_left]
  rw [List.drop_append 1]
  simp only [List.drop_succ_cons, List.drop_zero]
  rw [List.take_append 1]
  simp only [List.take_succ_cons, List.take_zero]
  rw [show P.length + 1 + 1 = P.length + 2 from by omega]
  rw [List.drop_append 2]
  simp only [List.drop_succ_cons, List.drop_drop, List.drop_zero]
  simp only [List.length_append, List.length_cons, List.length_nil]

/-- Overwriting index 1 of a cons buffer with NUL. -/
theorem writeAt_one_cons (c : Char) (Y : List Char) :
    writeAt (c :: Y) 1 nulChar = c :: nulChar :: Y.drop 1 := by
  simp [writeAt]

/-- A buffer starting with a non-NUL byte then NUL holds exactly that
one-byte C string. -/
theorem cString_cons_nul (c : Char) (hc : c ≠ nulChar) (Z : List Char) :
    cString (c :: nulChar :: Z) = [c] := by
  unfold cString
  rw [List.takeWhile_cons_of_pos (by simp [hc]), List.takeWhile_cons_of_neg (by simp)]

/-- The full-snapshot record is never empty. -/
theorem jsonFullChars_len_pos (snap : Snapshot) : 0 < (jsonFullChars snap).length := by
  have h5 : (chars "\x7b\"t\":").length = 5 := by decide
  unfold jsonFullChars
  simp only [List.length_append]
  omega

/-- `toJson` fails when the record and its NUL exceed the capacity. -/
theorem toJson_false_of_small (s : State) (orig : List Char) (cap : Nat)
    (h : cap ≤ (jsonFullChars s.now).length) : (s.toJson orig cap).1 = false := by
  unfold State.toJson
  split
  · rfl
  · simp [snprintfAt_len, Nat.not_lt.mpr h]

/-- When the record and its NUL fit, `toJson` succeeds and the buffer
holds exactly the record, NUL-terminated. -/
theorem toJson_fits (s : State) (orig : List Char) (cap : Nat)
    (hfit : (jsonFullChars s.now).length + 1 ≤ cap) :
    s.toJson orig cap =
      (true, jsonFullChars s.now ++ nulChar :: orig.drop ((jsonFullChars s.now).length + 1)) := by
  have hpos := jsonFullChars_len_pos s.now
  unfold State.toJson
  rw [if_neg (by omega)]
  rw [snprintfAt_fits orig 0 cap _ (by omega)]
  simp only [List.take_zero, List.nil_append, Nat.zero_add]
  have hlt : (jsonFullChars s.now).length < cap := by omega
  simp [hpos, hlt]

/-- `toDeltaJson` succeeds only when the record, the closing brace, the
NUL and the final guard's spare byte all fit. -/
theorem toDeltaJson_true_needs (s : State) (orig : List Char) (cap mask : Nat)
    (vb vd vp : List Char)
    (h : (s.toDeltaJson orig cap mask vb vd vp).1 = true) :
    (deltaJsonSpec s.now mask vb vd vp).length + 2 ≤ cap := by
  have hclose : chars "\x7d" = ['\x7d'] := by decide
  have hl : (deltaJsonSpec s.now mask vb vd vp).length =
      (chars "\x7b\"t\":" ++ natChars s.now.tsMs).length +
        (renderFields (deltaFieldList s.now mask vb vd vp)).length + 1 := by
    rw [deltaSpec_decomp]
    simp only [List.length_append, hclose, List.length_cons, List.length_nil]
  unfold State.toDeltaJson at h
  split at h
  · exact absurd h (by simp)
  · simp only [snprintfAt_len] at h
    split at h
    · exact absurd h (by simp)
    · split at h
      · exact absurd h (by simp)
      · rename_i b len heq
        have hlen := addFields_len cap (deltaFieldList s.now mask vb vd vp) _ _ b len heq
        split at h
        · exact absurd h (by simp)
        · rename_i hguard
          omega

end ctl

/-- Wrapping subtraction of a value from itself is zero. -/
theorem u32sub_self (t : Nat) : u32sub t t = 0 := by
  have h : t % u32W ≤ u32W := le_of_lt (Nat.mod_lt _ (by norm_num [u32W]))
  simp [u32sub, Nat.add_sub_cancel' h]

namespace hal

/-- An `update` call that neither flips the raw reading nor has seen it
held for the debounce window leaves the button untouched and reports no
edge. -/
theorem DB.update_no_flip_short (b : DB) (t : Nat) (r : Bool)
    (hlr : b.lastReading = r) (hheld : u32sub t b.lastChangeMs < b.debounceMs) :
    b.update t r = (b, false) := by
  simp [DB.update, hlr, not_le.mpr hheld]

/-- An `update` call sampling the reading the button is already stable
at reports no edge and leaves the state unchanged, at any time. -/
theorem DB.update_no_flip_stable (b : DB) (t : Nat) (r : Bool)
    (hlr : b.lastReading = r) (hst : b.stable = r) :
    b.update t r = (b, false) := by
  simp [DB.update, hlr, hst]

/-- An `update` call with an unflipped reading that has been held for
the debounce window and differs from the stable level commits it and
reports the edge. -/
theorem DB.update_commit (b : DB) (t : Nat) (r : Bool)
    (hlr : b.lastReading = r) (hw : b.debounceMs ≤ u32sub t b.lastChangeMs)
    (hst : r ≠ b.stable) :
    b.update t r = ({ b with prevStable := b.stable, stable := r }, true) := by
  simp [DB.update, hlr, hw, hst]

/-- An `update` call that flips the raw reading with a nonzero debounce
window restarts the window and reports no edge. -/
theorem DB.update_flip (b : DB) (t : Nat) (r : Bool)
    (hflip : r ≠ b.lastReading) (hw : b.debounceMs ≠ 0) :
    b.update t r = ({ b with lastReading := r, lastChangeMs := t }, false) := by
  simp [DB.update, hflip, u32sub_self, Nat.le_zero, hw]

/-- An `update` call that flips the raw reading with a zero debounce
window commits immediately when the reading differs from the stable
level. -/
theorem DB.update_flip_zero (b : DB) (t : Nat) (r : Bool)
    (hflip : r ≠ b.lastReading) (hw : b.debounceMs = 0) (hst : r ≠ b.stable) :
    b.update t r = ({ b with lastReading := r, lastChangeMs := t, prevStable := b.stable, stable := r }, true) := by
  simp [DB.update, hflip, u32sub_self, hw, hst]

/-- `run` distributes over list append. -/
theorem DB.run_append (b : DB) (l1 l2 : List (Nat × Bool)) :
    DB.run b (l1 ++ l2) =
      ((DB.run (DB.run b l1).1 l2).1,
       (DB.run b l1).2 ++ (DB.run (DB.run b l1).1 l2).2) := by
  induction l1 generalizing b with
  | nil => simp [DB.run]
  | cons tr rest ih =>
    obtain ⟨t, r⟩ := tr
    have h := ih (b.update t r).1
    simp only [List.cons_append, DB.run, List.append_eq, h]

/-- Samples of the level the button is already stable at never produce
edges and never change the state. -/
theorem DB.run_stable_quiet (r : Bool) (ts : List Nat) (b : DB)
    (hlr : b.lastReading = r) (hst : b.stable = r) :
    DB.run b (ts.map fun t => (t, r)) = (b, List.replicate ts.length false) := by
  induction ts with
  | nil => simp [DB.run]
  | cons t rest ih =>
    simp only [List.map_cons, DB.run, DB.update_no_flip_stable b t r hlr hst]
    rw [ih]
    simp [List.replicate]

/-- Samples of an unflipped reading all taken before the debounce
window elapses never produce edges and never change the state. -/
theorem DB.run_short_quiet (r : Bool) (ts : List Nat) (b : DB)
    (hlr : b.lastReading = r)
    (hpre : ∀ t ∈ ts, u32sub t b.lastChangeMs < b.debounceMs) :
    DB.run b (ts.map fun t => (t, r)) = (b, List.replicate ts.length false) := by
  induction ts with
  | nil => simp [DB.run]
  | cons t rest ih =>
    simp only [List.map_cons, DB.run,
      DB.update_no_flip_short b t r hlr (hpre t (by simp))]
    rw [ih (fun t ht => hpre t (by simp [ht]))]
    simp [List.replicate]

/-- Part (a) of the debounce contract: a glitchy trace produces no
committed edge and leaves the stable level unchanged. -/
theorem DB.glitchy_no_edge (τ : List (Nat × Bool)) : ∀ b : DB, DB.glitchy b τ = true →
    (DB.run b τ).2.count true = 0 ∧ (DB.run b τ).1.stable = b.stable := by
  induction τ with
  | nil => intro b _; simp [DB.run]
  | cons tr rest ih =>
    obtain ⟨t, r⟩ := tr
    intro b hg
    simp only [DB.glitchy, Bool.and_eq_true, decide_eq_true_eq] at hg
    obtain ⟨h1, h2⟩ := hg
    by_cases hflip : r = b.lastReading
    · have hheld : u32sub t b.lastChangeMs < b.debounceMs := by
        simpa [DB.heldFor, hflip] using h1
      have hu : b.update t r = (b, false) := DB.update_no_flip_short b t r hflip.symm hheld
      rw [hu] at h2
      have hr := ih b h2
      simp only [DB.run, hu]
      exact ⟨by simpa using hr.1, hr.2⟩
    · have hw : b.debounceMs ≠ 0 := by
        have : (0:Nat) < b.debounceMs := by simpa [DB.heldFor, hflip] using h1
        exact Nat.pos_iff_ne_zero.mp this
      have hu : b.update t r = ({ b with lastReading := r, lastChangeMs := t }, false) :=
        DB.update_flip b t r hflip hw
      rw [hu] at h2
      have hr := ih _ h2
      simp only [DB.run, hu]
      exact ⟨by simpa using hr.1, hr.2⟩

/-- Part (b) of the debounce contract: a single raw change from the
quiescent stable level, re-sampled only inside the settling window
until one sample at or past the window, produces exactly one edge and
commits the new level, whatever comes afterwards at that level. -/
theorem DB.single_change_one_edge (b : DB) (r : Bool) (t1 : Nat) (pre : List Nat)
    (t0 : Nat) (post : List Nat)
    (hq : b.lastReading = b.stable) (hr : r = !b.stable)
    (hpre : ∀ t ∈ pre, u32sub t t1 < b.debounceMs)
    (ht0 : b.debounceMs ≤ u32sub t0 t1) :
    ((DB.run b (singleChangeTrace r t1 pre t0 post)).2.count true = 1) ∧
    (DB.run b (singleChangeTrace r t1 pre t0 post)).1.stable = r := by
  have hst : r ≠ b.stable := by cases hb : b.stable <;> simp [hr, hb]
  have hflip : r ≠ b.lastReading := by rw [hq]; exact hst
  by_cases hw : b.debounceMs = 0
  · have hpre0 : pre = [] := by
      cases pre with
      | nil => rfl
      | cons t ts => exact absurd (hpre t (by simp)) (by simp [hw])
    subst hpre0
    have hu1 : b.update t1 r = ({ b with lastReading := r, lastChangeMs := t1, prevStable := b.stable, stable := r }, true) :=
      DB.update_flip_zero b t1 r hflip hw hst
    have hu2 : ({ b with lastReading := r, lastChangeMs := t1, prevStable := b.stable, stable := r } : DB).update t0 r = ({ b with lastReading := r, lastChangeMs := t1, prevStable := b.stable, stable := r }, false) :=
      DB.update_no_flip_stable _ t0 r rfl rfl
    have hpost := DB.run_stable_quiet r post
      ({ b with lastReading := r, lastChangeMs := t1, prevStable := b.stable, stable := r })
      rfl rfl
    simp only [singleChangeTrace, List.map_nil, List.nil_append, DB.run, hu1, hu2, hpost]
    simp [List.count_cons, List.count_replicate]
  · have hu1 : b.update t1 r = ({ b with lastReading := r, lastChangeMs := t1 }, false) :=
      DB.update_flip b t1 r hflip hw
    have hpre1 : DB.run ({ b with lastReading := r, lastChangeMs := t1 }) (pre.map fun t => (t, r)) = (({ b with lastReading := r, lastChangeMs := t1 } : DB), List.replicate pre.length false) :=
      DB.run_short_quiet r pre _ rfl (fun t ht => hpre t ht)
    have hcommit : ({ b with lastReading := r, lastChangeMs := t1 } : DB).update t0 r = ({ b with lastReading := r, lastChangeMs := t1, prevStable := b.stable, stable := r }, true) := by
      simpa using DB.update_commit ({ b with lastReading := r, lastChangeMs := t1 }) t0 r rfl ht0 hst
    have hpost := DB.run_stable_quiet r post
      ({ b with lastReading := r, lastChangeMs := t1, prevStable := b.stable, stable := r })
      rfl rfl
    simp only [singleChangeTrace, DB.run, hu1]
    rw [DB.run_append, hpre1]
    simp only [DB.run, hcommit, hpost]
    simp [List.count_cons, List.count_append, List.count_replicate]

end hal

namespace cannon

/-- `StateView.run` over a trace ending in `p` is the run over the
front followed by one `update p`. -/
theorem StateView.run_append_single (v : StateView) (l : List ViewIn) (p : ViewIn) :
    StateView.run v (l ++ [p]) = (StateView.run v l |>.update p).1 := by
  simp [StateView.run, List.foldl_append]

/-- One `StateView.update` latches the sampled flags. -/
theorem StateView.update_latches (v : StateView) (i : ViewIn) :
    (v.update i).1.loaded = i.loaded ∧ (v.update i).1.fired = i.fired ∧
    (v.update i).1.justLoaded = (i.loaded && !v.loaded) ∧
    (v.update i).1.justFired = (i.fired && !v.fired) :=
  ⟨rfl, rfl, rfl, rfl⟩

end cannon

namespace i2c

/-- The pulse loop emits no stop conditions. -/
theorem clearLoop_stop_free (sda : Nat → Bool) (n idx : Nat) :
    ((clearLoop sda n idx).2.count BusEv.stop) = 0 := by
  induction n generalizing idx with
  | zero => simp [clearLoop]
  | succ n ih =>
    simp only [clearLoop]
    split
    · simp
    · simpa [List.count_cons] using ih (idx + 1)

/-- The pulse loop emits at most `n` clock pulses. -/
theorem clearLoop_count_le (sda : Nat → Bool) (n idx : Nat) :
    ((clearLoop sda n idx).2.count BusEv.pulse) ≤ n := by
  induction n generalizing idx with
  | zero => simp [clearLoop]
  | succ n ih =>
    simp only [clearLoop]
    split
    · simp
    · simpa [List.count_cons] using Nat.succ_le_succ (ih (idx + 1))

/-- If the data line reads high at relative read index `k`, the loop
stops within `k` pulses. -/
theorem clearLoop_early (sda : Nat → Bool) (n : Nat) :
    ∀ idx k, sda (idx + k) = true → ((clearLoop sda n idx).2.count BusEv.pulse) ≤ k := by
  induction n with
  | zero => intro idx k _; simp [clearLoop]
  | succ n ih =>
    intro idx k hk
    simp only [clearLoop]
    split
    · simp
    · rename_i hlow
      match k with
      | 0 => exact absurd hk (by simpa using hlow)
      | k + 1 =>
        have := ih (idx + 1) k (by simpa [Nat.add_assoc, Nat.add_comm 1 k] using hk)
        simpa [List.count_cons] using Nat.succ_le_succ this

end i2c

/-! ## Claim theorems -/

/-- Claim C1 (counterexample): with the default epsilon 0.25° and the
heartbeat disabled, updating the aggregator with heading 359.9° and
then 0.1° (all other fields unchanged) does set the heading-changed
bit in the second returned ChangeMask — the code compares the raw
difference 359.8, not the true angular distance 0.2. -/
theorem state_update_wrap_sets_angle_bit :
    ((((ctl.State.init.setHeartbeatMs 0).update 100 (3599/10) false 50 true).1.update
        200 (1/10) false 50 true).2 &&& ctl.ChangedAngle) ≠ 0 := by
  rw [ctl.update_mask_angle_bit]
  have hf := ctl.update_fst_fields (ctl.State.init.setHeartbeatMs 0) 100 (3599/10) false 50 true
  rw [hf.1, hf.2.2.2]
  show (ctl.State.init.setHeartbeatMs 0).angleEpsDeg < |(1/10 : Rat) - 3599/10|
  rw [show ((1/10 : Rat) - 3599/10) = -(1799/5) by norm_num, abs_neg,
    abs_of_nonneg (by norm_num : (0:Rat) ≤ 1799/5)]
  show (1/4 : Rat) < 1799/5
  norm_num

/-- Claim C1 (amended): for any starting state and any two successive
updates, the heading-changed bit of the second mask is set exactly when
the raw absolute difference `|a2 - a1|` exceeds the configured epsilon;
for 359.9° → 0.1° that difference is 359.8, so the bit is set. -/
theorem state_update_angle_bit_raw_difference (s : ctl.State)
    (ts1 : Nat) (a1 : Rat) (b1 : Bool) (d1 : Nat) (v1 : Bool)
    (ts2 : Nat) (a2 : Rat) (b2 : Bool) (d2 : Nat) (v2 : Bool) :
    ((((s.update ts1 a1 b1 d1 v1).1.update ts2 a2 b2 d2 v2).2 &&& ctl.ChangedAngle ≠ 0) ↔
      |a2 - a1| > s.angleEpsDeg) := by
  have hfields := ctl.update_fst_fields s ts1 a1 b1 d1 v1
  have := ctl.update_mask_angle_bit (s.update ts1 a1 b1 d1 v1).1 ts2 a2 b2 d2 v2
  rw [this, hfields.1, hfields.2.2.2]

/-- Claim C2 (code-bug evaluation): both quantization steps can yield
the out-of-range value 360: `normalize360` applied to the heading
359.9° rounds (`lround`) to 360, and `getAngle`'s `avgAngle + 0.5f`
truncation returns 360 for the internal average 359.7°, which is
itself a reachable output of `angleFromXY` (at an `atan2` result of
-0.3°, i.e. inside the normalized range [0, 360)). -/
theorem quantized_heading_can_reach_360 :
    cannon.normalize360 (3599/10) = 360 ∧
    ALS31300.getAngleRound (3597/10) = 360 ∧
    ALS31300.angleFromXYNorm (-3/10) = 3597/10 := by
  refine ⟨?_, ?_, ?_⟩
  · show (if _ < (0:Rat) then _ else Int.floor _) = 360
    norm_num [cannon.normalize360, ALS31300.truncQ]
  · norm_num [ALS31300.getAngleRound, ALS31300.truncQ]
    decide
  · norm_num [ALS31300.angleFromXYNorm]

/-- Claim C5: if either register read fails, `Sensor::update` returns
false with the filtered axis state exactly as it was — no partial
update. -/
theorem sensor_update_failure_unchanged (s : ALS31300.Sensor) (r28 r29 : Option Nat)
    (h : r28 = none ∨ r29 = none) :
    ALS31300.Sensor.update s r28 r29 = (false, s) := by
  rcases h with h | h
  · subst h; rfl
  · subst h; cases r28 <;> rfl

/-- Witness for C5: both single-read failure modes at a concrete
sensor state. -/
theorem sensor_update_failure_unchanged_witness :
    ALS31300.Sensor.update ALS31300.Sensor.init none (some 5) = (false, ALS31300.Sensor.init) ∧
    ALS31300.Sensor.update ALS31300.Sensor.init (some 77) none = (false, ALS31300.Sensor.init) :=
  ⟨sensor_update_failure_unchanged _ _ _ (Or.inl rfl), sensor_update_failure_unchanged _ _ _ (Or.inr rfl)⟩

/-- Claim C6 (counterexample): with a negative configured angle
epsilon (settable through `setAngleEpsilon`) and the heartbeat
disabled, two updates with identical arguments do NOT return
`ChangedNone` the second time: `fabs(0) > eps` holds for negative
epsilon, so the angle bit fires. -/
theorem state_update_identical_args_negative_eps :
    ((((ctl.State.init.setAngleEpsilon (-1)).setHeartbeatMs 0).update 100 5 false 50 true).1.update
        100 5 false 50 true).2 ≠ ctl.ChangedNone := by
  intro h0
  have hf := ctl.update_fst_fields ((ctl.State.init.setAngleEpsilon (-1)).setHeartbeatMs 0)
    100 5 false 50 true
  have hb := (ctl.update_mask_angle_bit
    (((ctl.State.init.setAngleEpsilon (-1)).setHeartbeatMs 0).update 100 5 false 50 true).1
    100 5 false 50 true).mpr (by rw [hf.1, hf.2.2.2]; norm_num [ctl.State.init,
      ctl.State.setAngleEpsilon, ctl.State.setHeartbeatMs])
  rw [h0] at hb
  exact hb (by decide)

/-- Claim C6 (amended): calling `update` twice in succession with
identical arguments while the heartbeat is disabled returns
`ChangedNone` on the second call, for every starting state whose
configured angle epsilon is nonnegative (the default 0.25 is). -/
theorem state_update_identical_args_changed_none (s : ctl.State)
    (ts : Nat) (a : Rat) (b : Bool) (d : Nat) (v : Bool)
    (heps : 0 ≤ s.angleEpsDeg) (hhb : s.heartbeatMs = 0) :
    ((s.update ts a b d v).1.update ts a b d v).2 = ctl.ChangedNone := by
  have hf := ctl.update_fst_fields s ts a b d v
  simp only [ctl.State.update, ctl.ChangedNone, ctl.ChangedAngle, ctl.ChangedButton,
    ctl.ChangedDistance, ctl.ChangedPresence, ctl.ChangedTimeOnly]
  simp [sub_self, abs_zero, not_lt.mpr heps, hhb]

/-- Witness for C6 (amended): a concrete repeated update from the
default state with the heartbeat turned off. -/
theorem state_update_identical_args_changed_none_witness :
    (((ctl.State.init.setHeartbeatMs 0).update 7 3 true 10 false).1.update
        7 3 true 10 false).2 = ctl.ChangedNone :=
  state_update_identical_args_changed_none (ctl.State.init.setHeartbeatMs 0) 7 3 true 10 false
    (by norm_num [ctl.State.init, ctl.State.setHeartbeatMs]) rfl

/-- Claim C9: `clearBus` returns exactly the data-line sample taken
after the generated stop condition; it emits at most `pulses` clock
pulses and stops pulsing as soon as a sample reads high (if sample `k`
is high, at most `k` pulses happen); it emits exactly one stop
condition; and on a line that is low for 3 of 9 pulses then released
it returns true with one stop condition and three pulses. -/
theorem clearBus_contract (sda : Nat → Bool) (pulses : Nat) :
    ((i2c.clearBus sda pulses).1 = sda (i2c.clearLoop sda pulses 0).1) ∧
    ((i2c.clearBus sda pulses).2.count i2c.BusEv.pulse ≤ pulses) ∧
    (∀ k, sda k = true → (i2c.clearBus sda pulses).2.count i2c.BusEv.pulse ≤ k) ∧
    ((i2c.clearBus sda pulses).2.count i2c.BusEv.stop = 1) ∧
    (i2c.clearBus (fun n => decide (3 ≤ n)) 9).1 = true ∧
    (i2c.clearBus (fun n => decide (3 ≤ n)) 9).2.count i2c.BusEv.stop = 1 ∧
    (i2c.clearBus (fun n => decide (3 ≤ n)) 9).2.count i2c.BusEv.pulse = 3 := by
  refine ⟨rfl, ?_, ?_, ?_, by decide, by decide, by decide⟩
  · simpa [i2c.clearBus, List.count_append] using i2c.clearLoop_count_le sda pulses 0
  · intro k hk
    simpa [i2c.clearBus, List.count_append] using
      i2c.clearLoop_early sda pulses 0 k (by simpa using hk)
  · simp [i2c.clearBus, List.count_append, i2c.clearLoop_stop_free]

/-- Witness for C9: the early-stop bound applied at a concrete line
that reads high from sample 1 on. -/
theorem clearBus_contract_witness :
    (i2c.clearBus (fun n => decide (1 ≤ n)) 4).2.count i2c.BusEv.pulse ≤ 1 :=
  (clearBus_contract (fun n => decide (1 ≤ n)) 4).2.2.1 1 (by decide)

/-- Claim C10: over any update sequence with no intervening reset,
`justLoaded` after an update equals "presence sampled true now and
false at the previous update" (rising edge), and `justFired` likewise
for the button flag; on a cycle where a flag merely stays true the
edge output is false.  The first update compares against the view's
latched state. -/
theorem stateView_edge_semantics (v : cannon.StateView) (ins : List cannon.ViewIn)
    (p c : cannon.ViewIn) :
    ((cannon.StateView.run v (ins ++ [p])).update c).1.justLoaded = (c.loaded && !p.loaded) ∧
    ((cannon.StateView.run v (ins ++ [p])).update c).1.justFired = (c.fired && !p.fired) ∧
    ((v.update c).1.justLoaded = (c.loaded && !v.loaded)) ∧
    ((v.update c).1.justFired = (c.fired && !v.fired)) := by
  have hrun := cannon.StateView.run_append_single v ins p
  have hl := cannon.StateView.update_latches (cannon.StateView.run v ins) p
  have hc := cannon.StateView.update_latches (cannon.StateView.run v (ins ++ [p])) c
  refine ⟨?_, ?_, (cannon.StateView.update_latches v c).2.2.1,
    (cannon.StateView.update_latches v c).2.2.2⟩
  · rw [hc.2.2.1, hrun, hl.1]
  · rw [hc.2.2.2, hrun, hl.2.1]

/-- Claim C4: (a) over any sample trace in which no raw reading is ever
held for the full debounce window, `update` never returns true and the
stable level is unchanged at the end; (b) a single raw change away from
the quiescent stable level, re-sampled only inside the settling window
until one sample at or past the window and held thereafter, makes
`update` return true exactly once and commits the new stable level. -/
theorem debounce_window_semantics :
    (∀ (b : hal.DB) (tr : List (Nat × Bool)), hal.DB.glitchy b tr = true →
       (hal.DB.run b tr).2.count true = 0 ∧ (hal.DB.run b tr).1.stable = b.stable) ∧
    (∀ (b : hal.DB) (r : Bool) (t1 : Nat) (pre : List Nat) (t0 : Nat) (post : List Nat),
       b.lastReading = b.stable → r = !b.stable →
       (∀ t ∈ pre, u32sub t t1 < b.debounceMs) →
       b.debounceMs ≤ u32sub t0 t1 →
       ((hal.DB.run b (hal.singleChangeTrace r t1 pre t0 post)).2.count true = 1) ∧
       (hal.DB.run b (hal.singleChangeTrace r t1 pre t0 post)).1.stable = r) :=
  ⟨fun b tr h => hal.DB.glitchy_no_edge tr b h,
   fun b r t1 pre t0 post hq hr hpre ht0 =>
     hal.DB.single_change_one_edge b r t1 pre t0 post hq hr hpre ht0⟩

/-- Witness for C4: a 5/10/15 ms toggle burst on a 30 ms window yields
no edge; a raw change at 100 ms re-sampled at 110 and 120 ms and held
through 140 ms yields exactly one edge. -/
theorem debounce_window_semantics_witness :
    ((hal.DB.run hal.DB.init [(5, true), (10, false), (15, true)]).2.count true = 0) ∧
    ((hal.DB.run hal.DB.init
        (hal.singleChangeTrace true 100 [110, 120] 140 [150])).2.count true = 1) :=
  ⟨(debounce_window_semantics.1 hal.DB.init [(5, true), (10, false), (15, true)] (by decide)).1,
   (debounce_window_semantics.2 hal.DB.init true 100 [110, 120] 140 [150] rfl rfl
      (by decide) (by decide)).1⟩

/-- Claim C7: whenever the output buffer is large enough (the final
guard demands the record, NUL and one spare byte), `toDeltaJson`
succeeds and the buffer holds exactly the record shape the spec
prescribes: the timestamp field first, then precisely the fields
flagged in the mask in the fixed key order ang, btn, dist, prs, with
the heading rendered to two decimal places (`deltaJsonSpec`).  This
holds for every choice of the (nonempty) byte strings the source's
undefined-behaviour `%d`/`%u` double-vararg conversions emit for the
btn, dist and prs values. -/
theorem delta_json_fixed_fields (s : ctl.State) (orig : List Char) (cap mask : Nat)
    (vb vd vp : List Char) (hvb : vb ≠ []) (hvd : vd ≠ []) (hvp : vp ≠ [])
    (hfit : (ctl.deltaJsonSpec s.now mask vb vd vp).length + 2 ≤ cap) :
    s.toDeltaJson orig cap mask vb vd vp =
      (true, ctl.deltaJsonSpec s.now mask vb vd vp ++
        nulChar :: orig.drop ((ctl.deltaJsonSpec s.now mask vb vd vp).length + 1)) :=
  ctl.toDeltaJson_fits s orig cap mask vb vd vp hvb hvd hvp hfit

/-- Witness for C7: the sample snapshot with the button and distance
bits flagged, in a 60-byte buffer, with one concrete choice of the
undefined value bytes. -/
theorem delta_json_fixed_fields_witness :
    ctl.sampleState.toDeltaJson (List.replicate 60 ' ') 60 6 (chars "1") (chars "7") (chars "0") =
      (true, ctl.deltaJsonSpec ctl.sampleState.now 6 (chars "1") (chars "7") (chars "0") ++
        nulChar :: (List.replicate 60 ' ').drop ((ctl.deltaJsonSpec ctl.sampleState.now 6 (chars "1") (chars "7") (chars "0")).length + 1)) :=
  delta_json_fixed_fields ctl.sampleState (List.replicate 60 ' ') 60 6
    (chars "1") (chars "7") (chars "0") (by decide) (by decide) (by decide) (by decide)

/-- Claim C8: both encoders return false whenever the encoded record
including its terminating NUL would not fit in the caller's buffer,
and return true only when the complete record was written within the
capacity.  For the delta encoder the record is measured with whatever
(nonempty) bytes the undefined `%d`/`%u` value conversions emit, so
the statement holds for every such rendering. -/
theorem json_encoders_capacity (s : ctl.State) (orig : List Char) (cap mask : Nat)
    (vb vd vp : List Char) (hvb : vb ≠ []) (hvd : vd ≠ []) (hvp : vp ≠ []) :
    (cap < (ctl.jsonFullChars s.now).length + 1 → (s.toJson orig cap).1 = false) ∧
    ((s.toJson orig cap).1 = true →
      (ctl.jsonFullChars s.now).length + 1 ≤ cap ∧
      (s.toJson orig cap).2 = ctl.jsonFullChars s.now ++
        nulChar :: orig.drop ((ctl.jsonFullChars s.now).length + 1)) ∧
    (cap < (ctl.deltaJsonSpec s.now mask vb vd vp).length + 1 →
      (s.toDeltaJson orig cap mask vb vd vp).1 = false) ∧
    ((s.toDeltaJson orig cap mask vb vd vp).1 = true →
      (ctl.deltaJsonSpec s.now mask vb vd vp).length + 1 ≤ cap ∧
      (s.toDeltaJson orig cap mask vb vd vp).2 = ctl.deltaJsonSpec s.now mask vb vd vp ++
        nulChar :: orig.drop ((ctl.deltaJsonSpec s.now mask vb vd vp).length + 1)) := by
  refine ⟨?_, ?_, ?_, ?_⟩
  · intro h
    exact ctl.toJson_false_of_small s orig cap (by omega)
  · intro h
    by_cases hc : (ctl.jsonFullChars s.now).length + 1 ≤ cap
    · exact ⟨hc, by rw [ctl.toJson_fits s orig cap hc]⟩
    · exact absurd h (by rw [ctl.toJson_false_of_small s orig cap (by omega)]; simp)
  · intro h
    cases hb : (s.toDeltaJson orig cap mask vb vd vp).1
    · rfl
    · have := ctl.toDeltaJson_true_needs s orig cap mask vb vd vp hb
      omega
  · intro h
    have hn := ctl.toDeltaJson_true_needs s orig cap mask vb vd vp h
    exact ⟨by omega, by rw [ctl.toDeltaJson_fits s orig cap mask vb vd vp hvb hvd hvp hn]⟩

/-- Witness for C8: a 3-byte buffer is too small for either record of
the sample state (under a concrete choice of the undefined value
bytes), and both encoders report failure there. -/
theorem json_encoders_capacity_witness :
    (ctl.sampleState.toJson (List.replicate 3 ' ') 3).1 = false ∧
    (ctl.sampleState.toDeltaJson (List.replicate 3 ' ') 3 6 (chars "1") (chars "7") (chars "0")).1 = false :=
  ⟨(json_encoders_capacity ctl.sampleState (List.replicate 3 ' ') 3 6
      (chars "1") (chars "7") (chars "0") (by decide) (by decide) (by decide)).1 (by decide),
   (json_encoders_capacity ctl.sampleState (List.replicate 3 ' ') 3 6
      (chars "1") (chars "7") (chars "0") (by decide) (by decide) (by decide)).2.2.1 (by decide)⟩

/-- Claim C3: `buildDeltaJson` treats `toDeltaJson`'s boolean result as
a byte count: with a nonzero change mask and a buffer of capacity at
least 2 that fits the full delta record, it returns true but
`safeTerm` writes a NUL at index 1, leaving the buffer holding only
the one-character C string `{`; `buildSnapshotJson` likewise returns
at most 1 and truncates the snapshot record to `{`. -/
theorem telemetry_source_truncates (s : ctl.State) (orig : List Char) (cap : Nat)
    (vb vd vp : List Char) (hvb : vb ≠ []) (hvd : vd ≠ []) (hvp : vp ≠ [])
    (hmask : s.lastChangeMask ≠ 0) (hcap2 : 2 ≤ cap)
    (hfit : (ctl.deltaJsonSpec s.now s.lastChangeMask vb vd vp).length + 2 ≤ cap)
    (hfitSnap : (ctl.jsonFullChars s.now).length + 1 ≤ cap) :
    (telemetry.buildDeltaJson s orig cap vb vd vp).1 = true ∧
    cString (telemetry.buildDeltaJson s orig cap vb vd vp).2 = chars "\x7b" ∧
    (telemetry.buildSnapshotJson s orig cap).1 ≤ 1 ∧
    cString (telemetry.buildSnapshotJson s orig cap).2 = chars "\x7b" := by
  have hd := ctl.toDeltaJson_fits s orig cap s.lastChangeMask vb vd vp hvb hvd hvp hfit
  have hj := ctl.toJson_fits s orig cap hfitSnap
  have hbrace : chars "\x7b" = ['\x7b'] := by decide
  have h5 : chars "\x7b\"t\":" = '\x7b' :: chars "\"t\":" := by decide
  have htd : ctl.deltaJsonSpec s.now s.lastChangeMask vb vd vp = '\x7b' :: (chars "\"t\":" ++ natChars s.now.tsMs ++ ctl.renderFields (ctl.deltaFieldList s.now s.lastChangeMask vb vd vp) ++ chars "\x7d") := by
    rw [ctl.deltaSpec_decomp, h5]
    simp only [List.cons_append]
  have htj : ctl.jsonFullChars s.now = '\x7b' :: (chars "\"t\":" ++ natChars s.now.tsMs ++ chars ",\"ang\":" ++ ctl.fmt2 s.now.angleDeg ++ chars ",\"btn\":" ++ (if s.now.buttonPressed then chars "1" else chars "0") ++ chars ",\"dist\":" ++ natChars s.now.distanceMm ++ chars ",\"prs\":" ++ (if s.now.targetPresent then chars "1" else chars "0") ++ chars "\x7d") := by
    unfold ctl.jsonFullChars
    rw [h5]
    simp only [List.cons_append]
  have hc0 : cap ≠ 0 := by omega
  have hc1 : (1:Nat) < cap := by omega
  simp only [telemetry.buildDeltaJson, telemetry.buildSnapshotJson, telemetry.safeTerm,
    if_neg hmask, hd, hj, htd, htj, List.cons_append, if_true, if_pos hc1, if_neg hc0]
  rw [if_pos hc0, if_pos hc0, ctl.writeAt_one_cons, ctl.writeAt_one_cons,
    ctl.cString_cons_nul '\x7b' (by decide), ctl.cString_cons_nul '\x7b' (by decide), hbrace]
  exact ⟨by decide, rfl, by decide, rfl⟩

/-- Witness for C3: the sample state (mask 6, i.e. button and distance
changed) in a 60-byte buffer, with one concrete choice of the
undefined value bytes. -/
theorem telemetry_source_truncates_witness :
    (telemetry.buildDeltaJson ctl.sampleState (List.replicate 60 ' ') 60 (chars "1") (chars "7") (chars "0")).1 = true ∧
    cString (telemetry.buildDeltaJson ctl.sampleState (List.replicate 60 ' ') 60 (chars "1") (chars "7") (chars "0")).2 = chars "\x7b" ∧
    (telemetry.buildSnapshotJson ctl.sampleState (List.replicate 60 ' ') 60).1 ≤ 1 ∧
    cString (telemetry.buildSnapshotJson ctl.sampleState (List.replicate 60 ' ') 60).2 = chars "\x7b" :=
  telemetry_source_truncates ctl.sampleState (List.replicate 60 ' ') 60
    (chars "1") (chars "7") (chars "0") (by decide) (by decide) (by decide)
    (by decide) (by decide) (by decide) (by decide)
